import Mathlib

/-!
Verification development for the Doculens PDF-chat repository.

The repository is a document question-answering pipeline: PDF text
extraction, chunking, embedding, a similarity-searchable store
(one variant backed by a FAISS file, one by a PostgreSQL table with a
pgvector column), and retrieval-grounded answer generation.

Each Python function relevant to a verified property is shallowly
embedded below as an executable Lean definition: external effects
(database, filesystem, network calls to the embedding and generation
models) become explicit function parameters or state values, and a
Python call that may raise an exception becomes an `Option`-valued
call (`none` = the call raised).
-/

namespace Doculens

/-!
### Module structure: `db/repository.py` and the import list of `app.py`

`app.py` opens with
`from db.repository import (get_documents, ..., search_across_documents, ...)`.
Python executes such a `from`-import by looking every listed name up in the
imported module's namespace; a name that the module does not define makes the
whole import statement raise `ImportError`, before any other code of the
importing module runs.
-/

/-- The complete list of functions defined at top level in
`db/repository.py` (its `def` statements, in source order). -/
def repositoryModuleDefs : List String :=
  ["create_user", "get_user_by_id", "get_user_by_username",
   "save_document", "get_documents", "get_document_by_id",
   "save_document_chunk", "get_document_chunks", "search_document_chunks",
   "create_chat_session", "get_chat_sessions", "get_chat_session_by_id",
   "add_message_to_session", "get_messages_by_session_id",
   "create_tag", "get_all_tags", "add_tag_to_document",
   "remove_tag_from_document"]

/-- The names `app.py` (lines 12-17) imports from `db.repository`. -/
def appImportsFromRepository : List String :=
  ["get_documents", "get_document_by_id", "save_document",
   "get_chat_sessions", "create_chat_session", "add_message_to_session",
   "get_messages_by_session_id", "search_document_chunks",
   "search_across_documents", "get_document_chunks", "create_user",
   "get_user_by_username", "get_all_tags", "create_tag",
   "add_tag_to_document", "remove_tag_from_document"]

/-- Python `from M import a, b, ...` succeeds iff every imported name is
defined in module `M`. -/
def fromImportSucceeds (defined imported : List String) : Bool :=
  imported.all (fun n => defined.contains n)

/-- The function name the batch-mode branch of the chat handler calls
(`app.py` line 511). -/
def batchModeSearchFunction : String := "search_across_documents"

/-- C1: the chat handler's batch mode calls `search_across_documents`, which
`app.py` imports from `db.repository`; `db.repository` defines no such
function, so the `from`-import of `app.py` raises `ImportError` and the
batch search path can never run. -/
theorem C1_batch_search_import_undefined :
    batchModeSearchFunction ∈ appImportsFromRepository ∧
    batchModeSearchFunction ∉ repositoryModuleDefs ∧
    fromImportSucceeds repositoryModuleDefs appImportsFromRepository = false := by
  refine ⟨by decide, by decide, by decide⟩

/-!
### `src/vector_store/vector_store_service.py`

`get_vector_store(text_chunks)` (lines 62-87): after `configure_genai()`
succeeds it runs `FAISS.from_texts(text_chunks, embeddings)` — building a
fresh index containing exactly the given chunks — and
`vectorstore.save_local(settings.VECTOR_STORE_PATH)`, which overwrites
whatever index was previously saved at that path. The saved store is
modelled as `Option (List String)`: the list of indexed chunk texts, or
`none` when nothing is saved. `apiOk` models the outcome of
`configure_genai()`; when it fails (or `FAISS.from_texts` raises) the
function returns `False` and leaves the saved store untouched.
The returned pair is (returned boolean, saved store after the call). -/
def get_vector_store (apiOk : Bool) (saved : Option (List String))
    (text_chunks : List String) : Bool × Option (List String) :=
  if apiOk then (true, some text_chunks) else (false, saved)

/-- C2 counterexample: with `"old chunk"` already saved in the index, a
successful `get_vector_store ["new chunk"]` call leaves a saved store that
no longer contains `"old chunk"`: previously indexed entries do NOT remain
present after the next batch is indexed. -/
theorem C2_counterexample_rebuild_loses_entries :
    (get_vector_store true (some ["old chunk"]) ["new chunk"]).1 = true ∧
    "old chunk" ∉ ((get_vector_store true (some ["old chunk"]) ["new chunk"]).2.getD []) := by
  refine ⟨rfl, by decide⟩

/-- C2 amended: `get_vector_store` is a rebuild, not a merge: a successful
call replaces the saved index with a fresh one holding exactly the chunks
passed to that call, regardless of what was saved before. -/
theorem C2_amended_fresh_index_overwrites (saved : Option (List String))
    (chunks : List String) :
    get_vector_store true saved chunks = (true, some chunks) := rfl

/-- Outcome of `search_documents(question_id, sanitized_question, username)`
(`src/vector_store/vector_store_service.py` lines 136-191), embedded over an
explicit environment:
* `apiOk`            — `configure_genai()` succeeded;
* `storePathExists`  — `os.path.exists(settings.VECTOR_STORE_PATH)`;
* `loaded`           — outcome of `FAISS.load_local`: `some store` on
                       success, `none` when it raises (missing index file,
                       corrupt or undeserializable data — the generic
                       `except Exception` catches the raise);
* `similaritySearch` — `vector_db.similarity_search(question, k=4)` on the
                       loaded store.
The function returns `None` when configuration fails, `None` (after a log
warning) when the path does not exist, `None` (from the `except` block)
when loading raises, and `Some docs` on success. -/
def search_documents (apiOk : Bool) (storePathExists : Bool)
    (loaded : Option (List String))
    (similaritySearch : List String → List String) : Option (List String) :=
  if !apiOk then none
  else if !storePathExists then none
  else
    match loaded with
    | none => none
    | some store => some (similaritySearch store)

/-- C3 counterexample: the caller-visible outcome for a location with no
previously-saved index (`storePathExists = false`) is exactly the outcome
for a corrupt index (`loaded = none`): both are `None`. The two failures
are not distinguishable by the caller. -/
theorem C3_counterexample_not_found_equals_corrupt :
    search_documents true false (some ["stored chunk"]) (fun s => s) =
      search_documents true true none (fun s => s) ∧
    search_documents true false (some ["stored chunk"]) (fun s => s) = none := by
  exact ⟨rfl, rfl⟩

/-- C3 amended: loading from a location without a saved index fails safely
(no exception escapes; the caller receives `None`), and a corrupt index
also yields `None` — but the two outcomes are identical, so callers cannot
show distinct "process documents first" and corruption messages. -/
theorem C3_amended_safe_but_indistinguishable (loaded : Option (List String))
    (f : List String → List String) :
    search_documents true false loaded f = none ∧
    search_documents true true none f = none := ⟨rfl, rfl⟩

/-!
### `db/repository.py`: `search_document_chunks` (lines 234-262)

The function runs the SQL query

  SELECT id, document_id, content, chunk_metadata,
         1 - (embedding <=> %s::vector) AS similarity
  FROM document_chunks
  WHERE document_id = %s
  ORDER BY similarity DESC
  LIMIT %s

against the `document_chunks` table and returns the rows (`result or []`,
so an empty result set is the empty list, not an error).

Embedding: the table is a list of rows in insertion order; the similarity
expression `1 - (embedding <=> query)` is abstracted as a function
`sim : List ℚ → List ℚ → ℚ` of the row's embedding and the query
embedding (its numeric value does not matter for the properties below).
SQL `ORDER BY` sorts by the key but leaves the relative order of rows with
equal keys unspecified, so the query's result is modelled as a relation:
`res` is admissible iff it is the `LIMIT`-prefix of some descending-sorted
permutation of the `WHERE`-filtered rows.
-/

/-- A row of the `document_chunks` table. -/
structure ChunkRow where
  id : Nat
  document_id : Nat
  content : String
  embedding : List ℚ
  chunk_order : Nat
deriving DecidableEq, Repr

/-- `WHERE document_id = %s`: the rows of the table belonging to the given
document, in table (insertion) order. -/
def rowsForDocument (table : List ChunkRow) (docId : Nat) : List ChunkRow :=
  table.filter (fun r => r.document_id == docId)

/-- Descending order on the computed `similarity` column. -/
def simDescending (sim : List ℚ → List ℚ → ℚ) (queryEmbedding : List ℚ)
    (a b : ChunkRow) : Prop :=
  sim b.embedding queryEmbedding ≤ sim a.embedding queryEmbedding

instance (sim : List ℚ → List ℚ → ℚ) (q : List ℚ) :
    DecidableRel (simDescending sim q) := by
  intro a b; unfold simDescending; infer_instance

/-- `res` is an admissible result of
`search_document_chunks(docId, queryEmbedding, lim)`: the `LIMIT lim`
prefix of some descending-sorted permutation of the `WHERE`-filtered rows.
(The permutation is existential because SQL fixes no order among rows with
equal sort keys.) -/
def admissibleSearchResult (sim : List ℚ → List ℚ → ℚ) (table : List ChunkRow)
    (docId : Nat) (queryEmbedding : List ℚ) (lim : Nat)
    (res : List ChunkRow) : Prop :=
  ∃ sorted : List ChunkRow,
    sorted.Perm (rowsForDocument table docId) ∧
    sorted.Sorted (simDescending sim queryEmbedding) ∧
    res = sorted.take lim

/-- `res` breaks similarity ties by insertion order: any two result rows
with equal similarity appear in `res` in their table (insertion) order. -/
def tiesRespectInsertionOrder (sim : List ℚ → List ℚ → ℚ)
    (queryEmbedding : List ℚ) (table res : List ChunkRow) : Prop :=
  res.Pairwise (fun a b =>
    sim a.embedding queryEmbedding = sim b.embedding queryEmbedding →
    table.indexOf a ≤ table.indexOf b)

/-- C4: a search restricted to document `docId` only ever returns rows
whose `document_id` is `docId` — the `WHERE` clause filters the table
before `ORDER BY`/`LIMIT`, not after an unscoped top-k. -/
theorem C4_scope_isolation (sim : List ℚ → List ℚ → ℚ) (table : List ChunkRow)
    (docId : Nat) (queryEmbedding : List ℚ) (lim : Nat) (res : List ChunkRow)
    (h : admissibleSearchResult sim table docId queryEmbedding lim res) :
    ∀ r ∈ res, r.document_id = docId := by
  obtain ⟨sorted, hperm, _, hres⟩ := h
  intro r hr
  have hmem : r ∈ sorted := List.mem_of_mem_take (hres ▸ hr)
  have hfilt : r ∈ rowsForDocument table docId := hperm.mem_iff.mp hmem
  have hbeq := List.of_mem_filter hfilt
  simpa using hbeq

/-- A similarity function making every pair of embeddings tie (used to
instantiate the search theorems at concrete inputs). -/
def simZero : List ℚ → List ℚ → ℚ := fun _ _ => 0

/-- A concrete chunk row of document 1. -/
def rowA1 : ChunkRow := ⟨1, 1, "chunk of document A", [1, 0], 0⟩

/-- A concrete chunk row of document 2. -/
def rowB1 : ChunkRow := ⟨2, 2, "chunk of document B", [0, 1], 0⟩

/-- A two-document table: one chunk of document 1, one of document 2. -/
def tableAB : List ChunkRow := [rowA1, rowB1]

/-- C4 witness: searching `tableAB` with scope `document_id = 1` admits
`[rowA1]` as a result, and that row indeed belongs to document 1. -/
theorem C4_scope_isolation_witness : rowA1.document_id = 1 :=
  C4_scope_isolation simZero tableAB 1 [1, 1] 5 [rowA1]
    ⟨[rowA1], by decide, by decide, rfl⟩ rowA1 (by decide)

/-- Two rows of document 1 with equal-similarity embeddings, `tieRow1`
inserted before `tieRow2`. -/
def tieRow1 : ChunkRow := ⟨1, 1, "first inserted chunk", [1, 0], 0⟩

/-- Second of the two equal-similarity rows. -/
def tieRow2 : ChunkRow := ⟨2, 1, "second inserted chunk", [1, 0], 1⟩

/-- Table holding the two tied rows in insertion order. -/
def tieTable : List ChunkRow := [tieRow1, tieRow2]

/-- C5 counterexample: the query has no secondary sort key, so for a table
with two equal-similarity rows the result `[tieRow2, tieRow1]` — the ties
in REVERSE insertion order — is an admissible outcome of
`ORDER BY similarity DESC LIMIT 2`. Stable insertion-order tie-breaking is
not guaranteed by the code. -/
theorem C5_counterexample_unstable_ties :
    admissibleSearchResult simZero tieTable 1 [1, 1] 2 [tieRow2, tieRow1] ∧
    ¬ tiesRespectInsertionOrder simZero [1, 1] tieTable [tieRow2, tieRow1] := by
  constructor
  · exact ⟨[tieRow2, tieRow1], by decide, by decide, rfl⟩
  · intro h
    have h2 := List.rel_of_pairwise_cons h (List.mem_singleton.mpr rfl)
    have := h2 rfl
    revert this
    decide

/-- C5 amended: every admissible result of the search has at most `lim`
rows and is ordered by similarity, highest first; the order among
equal-similarity rows is unspecified (the SQL query has no secondary sort
key), so insertion-order tie-breaking is not guaranteed. -/
theorem C5_amended_limit_and_order (sim : List ℚ → List ℚ → ℚ)
    (table : List ChunkRow) (docId : Nat) (queryEmbedding : List ℚ)
    (lim : Nat) (res : List ChunkRow)
    (h : admissibleSearchResult sim table docId queryEmbedding lim res) :
    res.length ≤ lim ∧ res.Sorted (simDescending sim queryEmbedding) := by
  obtain ⟨sorted, _, hsort, hres⟩ := h
  constructor
  · subst hres
    exact (List.length_take lim sorted) ▸ Nat.min_le_left lim sorted.length
  · subst hres
    exact List.Pairwise.sublist (List.take_sublist lim sorted) hsort

/-- C5 amended witness: the admissible result `[rowA1]` for the scoped
search over `tableAB` has at most 5 rows and is similarity-sorted. -/
theorem C5_amended_witness :
    ([rowA1] : List ChunkRow).length ≤ 5 ∧
    ([rowA1] : List ChunkRow).Sorted (simDescending simZero [1, 1]) :=
  C5_amended_limit_and_order simZero tableAB 1 [1, 1] 5 [rowA1]
    ⟨[rowA1], by decide, by decide, rfl⟩

/-!
### `app.py` chat handler, response branch (lines 507-611)

After retrieving `relevant_chunks`, the handler branches on
`if relevant_chunks:` (Python truthiness: non-empty list). Non-empty:
it assembles a context string — in batch mode each chunk prefixed with
`"Document: <title>\n"`, chunks joined by a blank line — and calls the
generation model with a grounding prompt. Empty: it writes a fixed
"couldn't find relevant information" message and never calls the
generation model.
-/

/-- The two possible actions of the response branch. -/
inductive ChatAction where
  | generate (context : String)
  | noInfo (message : String)
deriving DecidableEq, Repr

/-- The user-facing message of the empty-result branch (`app.py`
lines 592-595), which differs between batch and single-document mode. -/
def noInfoMessage (isBatch : Bool) : String :=
  if isBatch then
    "I couldn't find relevant information across the selected documents to answer your question. Please try rephrasing your question."
  else
    "I couldn't find relevant information in the document to answer your question. Please try rephrasing your question."

/-- Context assembly (`app.py` lines 524-536): chunk contents joined by a
blank line; in batch mode each chunk is prefixed with its source document
title (`documentTitle` maps a row to `chunk.get('document_title', ...)`). -/
def buildContext (isBatch : Bool) (documentTitle : ChunkRow → String)
    (chunks : List ChunkRow) : String :=
  if isBatch then
    String.intercalate "\n\n"
      (chunks.map (fun c => "Document: " ++ documentTitle c ++ "\n" ++ c.content))
  else
    String.intercalate "\n\n" (chunks.map (fun c => c.content))

/-- The response branch: `if relevant_chunks:` generate from the assembled
context, `else` emit the no-information message. -/
def chatRespond (isBatch : Bool) (documentTitle : ChunkRow → String)
    (relevant_chunks : List ChunkRow) : ChatAction :=
  if relevant_chunks.isEmpty then ChatAction.noInfo (noInfoMessage isBatch)
  else ChatAction.generate (buildContext isBatch documentTitle relevant_chunks)

/-- C6: querying an empty `document_chunks` table (any query embedding, any
limit) admits only the empty list as result — the SQL query returns zero
rows and `execute_query`'s `result or []` turns that into `[]`, not an
error — and on an empty result the chat handler emits the no-information
message instead of calling the generation model. -/
theorem C6_empty_index_no_generation (sim : List ℚ → List ℚ → ℚ)
    (docId : Nat) (queryEmbedding : List ℚ) (lim : Nat) (res : List ChunkRow)
    (h : admissibleSearchResult sim [] docId queryEmbedding lim res) :
    res = [] ∧
    ∀ (isBatch : Bool) (documentTitle : ChunkRow → String),
      chatRespond isBatch documentTitle res = ChatAction.noInfo (noInfoMessage isBatch) := by
  obtain ⟨sorted, hperm, _, hres⟩ := h
  have hfilter : rowsForDocument [] docId = [] := rfl
  have hsorted : sorted = [] := by
    have := hperm
    rw [hfilter] at this
    exact this.eq_nil
  have hresnil : res = [] := by
    subst hsorted
    simpa using hres
  refine ⟨hresnil, ?_⟩
  intro isBatch documentTitle
  subst hresnil
  rfl

/-- C6 witness: the scenario of an empty index queried with `k = 5`: the
empty result is admissible and the single-document handler answers with
the no-information message. -/
theorem C6_empty_index_witness :
    chatRespond false (fun r => r.content) [] = ChatAction.noInfo (noInfoMessage false) :=
  (C6_empty_index_no_generation simZero 1 [1, 1] 5 []
    ⟨[], List.Perm.refl [], List.sorted_nil, rfl⟩).2 false (fun r => r.content)

/-!
### `utils/document_processor.py`: the per-chunk loop of `process_document`
(lines 62-88)

For each chunk `i` the loop runs, inside its own `try`/`except`:
`embedding = embedding_model.embed_query(chunk_text)`, then
`save_document_chunk(document_id, chunk_text, embedding, i, metadata)` with
`metadata = {"chunk_index": i, "total_chunks": len(chunks)}`. An exception
(in particular a failed embedding call) is logged and the loop continues
with the next chunk; nothing is saved for the failing chunk.

Embedding: `embed : String → Option (List ℚ)` models `embed_query`
(`none` = the call raised `EmbeddingUnavailable`-style); `save_document_chunk`
is modelled as appending a row, returning the saved rows in save order
together with the indices of the chunks whose embedding failed (the
logged failures).
-/

/-- A row of `document_chunks` as written by `save_document_chunk`. -/
structure SavedChunkRow where
  document_id : Nat
  content : String
  embedding : List ℚ
  chunk_order : Nat
  metadata_chunk_index : Nat
  metadata_total_chunks : Nat
deriving DecidableEq, Repr

/-- The row `save_document_chunk` writes for chunk `i` of a document. -/
def mkSavedChunk (docId : Nat) (c : String) (v : List ℚ) (i total : Nat) :
    SavedChunkRow :=
  ⟨docId, c, v, i, i, total⟩

/-- The chunk loop from position `s` on: saved rows (in save order) and
failed chunk indices (in log order). -/
def processChunksFrom (embed : String → Option (List ℚ)) (docId total : Nat) :
    Nat → List String → List SavedChunkRow × List Nat
  | _, [] => ([], [])
  | i, c :: rest =>
    let tail := processChunksFrom embed docId total (i + 1) rest
    match embed c with
    | some v => (mkSavedChunk docId c v i total :: tail.1, tail.2)
    | none => (tail.1, i :: tail.2)

/-- Steps 2-4 of `process_document`: chunk the already-split list, embed and
save each chunk, isolating per-chunk failures. -/
def process_document_chunks (embed : String → Option (List ℚ)) (docId : Nat)
    (chunks : List String) : List SavedChunkRow × List Nat :=
  processChunksFrom embed docId chunks.length 0 chunks

/-- Every saved row records a successful embedding of its own content and
sits at an in-range position. -/
theorem mem_saved_processChunksFrom (embed : String → Option (List ℚ))
    (docId total : Nat) :
    ∀ (l : List String) (s : Nat) (r : SavedChunkRow),
      r ∈ (processChunksFrom embed docId total s l).1 →
      embed r.content = some r.embedding ∧ r.document_id = docId ∧
      ∃ j, ∃ hj : j < l.length, r.chunk_order = s + j ∧ r.content = l.get ⟨j, hj⟩ := by
  intro l
  induction l with
  | nil => intro s r hr; cases hr
  | cons c rest ih =>
    intro s r hr
    unfold processChunksFrom at hr
    cases hc : embed c with
    | some v =>
      rw [hc] at hr
      rcases List.mem_cons.mp hr with hhead | htail
      · subst hhead
        refine ⟨hc, rfl, 0, by simp, by simp [mkSavedChunk], rfl⟩
      · obtain ⟨h1, h2, j, hj, h3, h4⟩ := ih (s + 1) r htail
        refine ⟨h1, h2, j + 1, by simpa using Nat.succ_lt_succ hj, by omega, h4⟩
    | none =>
      rw [hc] at hr
      obtain ⟨h1, h2, j, hj, h3, h4⟩ := ih (s + 1) r hr
      refine ⟨h1, h2, j + 1, by simpa using Nat.succ_lt_succ hj, by omega, h4⟩

/-- A chunk whose embedding succeeds is saved, whatever happened to the
other chunks. -/
theorem saved_of_embed_some (embed : String → Option (List ℚ))
    (docId total : Nat) :
    ∀ (l : List String) (s j : Nat) (hj : j < l.length) (v : List ℚ),
      embed (l.get ⟨j, hj⟩) = some v →
      mkSavedChunk docId (l.get ⟨j, hj⟩) v (s + j) total ∈
        (processChunksFrom embed docId total s l).1 := by
  intro l
  induction l with
  | nil => intro s j hj; cases hj
  | cons c rest ih =>
    intro s j hj v hv
    unfold processChunksFrom
    cases j with
    | zero =>
      have hc : embed c = some v := hv
      rw [hc]
      simp
    | succ j' =>
      have hmem := ih (s + 1) j' (Nat.lt_of_succ_lt_succ hj) v hv
      have harith : s + 1 + j' = s + (j' + 1) := by omega
      rw [harith] at hmem
      cases hc : embed c with
      | some w => exact List.mem_cons_of_mem _ hmem
      | none => exact hmem

/-- A chunk whose embedding raises is recorded among the failures. -/
theorem failed_of_embed_none (embed : String → Option (List ℚ))
    (docId total : Nat) :
    ∀ (l : List String) (s j : Nat) (hj : j < l.length),
      embed (l.get ⟨j, hj⟩) = none →
      s + j ∈ (processChunksFrom embed docId total s l).2 := by
  intro l
  induction l with
  | nil => intro s j hj; cases hj
  | cons c rest ih =>
    intro s j hj hv
    unfold processChunksFrom
    cases j with
    | zero =>
      have hc : embed c = none := hv
      rw [hc]
      simp
    | succ j' =>
      have hmem := ih (s + 1) j' (Nat.lt_of_succ_lt_succ hj) hv
      have harith : s + 1 + j' = s + (j' + 1) := by omega
      rw [harith] at hmem
      cases hc : embed c with
      | some w => exact hmem
      | none => exact List.mem_cons_of_mem _ hmem

/-- C8: in `process_document`'s chunk loop, (1) every row written by
`save_document_chunk` carries the successfully computed embedding of its
own content — a chunk is never stored with a null or partial vector; (2) a
chunk whose embedding call fails is not stored under its position and its
index is recorded among the failures; (3) every chunk whose embedding call
succeeds is stored, so one failing chunk does not abort the processing of
the remaining chunks. -/
theorem C8_embedding_failure_skips_chunk (embed : String → Option (List ℚ))
    (docId : Nat) (chunks : List String) :
    (∀ r ∈ (process_document_chunks embed docId chunks).1,
        embed r.content = some r.embedding) ∧
    (∀ (i : Nat) (hi : i < chunks.length),
        embed (chunks.get ⟨i, hi⟩) = none →
          (∀ r ∈ (process_document_chunks embed docId chunks).1,
              r.chunk_order ≠ i) ∧
          i ∈ (process_document_chunks embed docId chunks).2) ∧
    (∀ (i : Nat) (hi : i < chunks.length) (v : List ℚ),
        embed (chunks.get ⟨i, hi⟩) = some v →
          mkSavedChunk docId (chunks.get ⟨i, hi⟩) v i chunks.length ∈
            (process_document_chunks embed docId chunks).1) := by
  refine ⟨?_, ?_, ?_⟩
  · intro r hr
    exact (mem_saved_processChunksFrom embed docId chunks.length chunks 0 r hr).1
  · intro i hi hnone
    constructor
    · intro r hr hord
      obtain ⟨h1, _, j, hj, h3, h4⟩ :=
        mem_saved_processChunksFrom embed docId chunks.length chunks 0 r hr
      have hij : j = i := by omega
      subst hij
      rw [h4] at h1
      rw [h1] at hnone
      cases hnone
    · have := failed_of_embed_none embed docId chunks.length chunks 0 i hi hnone
      simpa using this
  · intro i hi v hv
    have := saved_of_embed_some embed docId chunks.length chunks 0 i hi v hv
    simpa using this

/-- An embedding model that raises on one specific chunk text and succeeds
elsewhere (used to instantiate the chunk-loop theorem concretely). -/
def embedWithOneFailure : String → Option (List ℚ) :=
  fun s => if s = "bad chunk" then none else some [1]

/-- C8 witness: with chunks `["alpha", "bad chunk", "gamma"]` and an
embedding model failing on `"bad chunk"`, index 1 lands in the failure log
while chunk 2 is still saved. -/
theorem C8_embedding_failure_witness :
    1 ∈ (process_document_chunks embedWithOneFailure 7
          ["alpha", "bad chunk", "gamma"]).2 ∧
    mkSavedChunk 7 "gamma" [1] 2 3 ∈
      (process_document_chunks embedWithOneFailure 7
          ["alpha", "bad chunk", "gamma"]).1 := by
  constructor
  · exact ((C8_embedding_failure_skips_chunk embedWithOneFailure 7
      ["alpha", "bad chunk", "gamma"]).2.1 1 (by decide) (by decide)).2
  · exact (C8_embedding_failure_skips_chunk embedWithOneFailure 7
      ["alpha", "bad chunk", "gamma"]).2.2 2 (by decide) [1] (by decide)

/-!
### `app.py`: the "Process All Documents" loop (lines 105-193)

For each uploaded file, inside a per-file `try`/`except`: the file is
written to a temp path, `extract_text_from_pdf` extracts its text, a title
is chosen by the naming option, and `process_document` stores document and
chunks. On success `processed_count += 1` and `last_document_id` is
updated; any exception is logged and shown per file
(`st.error("Error processing <name>: ...")`) and the loop continues with
the next file. Each iteration depends only on its own file (the loop
state is pure aggregation), so the loop is embedded as a `map` of a
per-file step plus aggregate counts.

`extract : List Nat → Option String` models `extract_text_from_pdf` on the
file's bytes (`none` = it raised); `process` models `process_document`
applied to (text, title, filename, user id): `none` = it raised,
`some docId?` = it returned (`process_document` returns `Optional[int]`,
and the loop counts any non-raising return as processed). -/

/-- An uploaded file: its name and raw bytes (`uploaded_file.getvalue()`). -/
structure UploadedFile where
  name : String
  bytes : List Nat
deriving DecidableEq, Repr

/-- Per-file outcome of one loop iteration. -/
inductive ItemOutcome where
  | processed (document_id : Option Nat)
  | failed (filename : String)
deriving DecidableEq, Repr

/-- The "Document Naming" radio options of the sidebar. -/
inductive NamingOption where
  | useFilenames
  | addPrefixToFilenames
  | enterCustomNamesLater
deriving DecidableEq, Repr

/-- Title selection (`app.py` lines 128-134). -/
def documentTitleFor (opt : NamingOption) (pre filename : String) : String :=
  match opt with
  | NamingOption.useFilenames => filename
  | NamingOption.addPrefixToFilenames => pre ++ " " ++ filename
  | NamingOption.enterCustomNamesLater => filename

/-- One iteration of the loop body (the `try` block): extraction, then
document processing; an exception at either point yields the per-item
failure outcome of the `except` block. -/
def processOneUpload (extract : List Nat → Option String)
    (process : String → String → String → Nat → Option (Option Nat))
    (opt : NamingOption) (pre : String) (userId : Nat)
    (f : UploadedFile) : ItemOutcome :=
  match extract f.bytes with
  | none => ItemOutcome.failed f.name
  | some text =>
    match process text (documentTitleFor opt pre f.name) f.name userId with
    | none => ItemOutcome.failed f.name
    | some docId => ItemOutcome.processed docId

/-- The whole loop: one outcome per uploaded file, in order. -/
def processAllDocuments (extract : List Nat → Option String)
    (process : String → String → String → Nat → Option (Option Nat))
    (opt : NamingOption) (pre : String) (userId : Nat)
    (files : List UploadedFile) : List ItemOutcome :=
  files.map (processOneUpload extract process opt pre userId)

/-- `processed_count` after the loop. -/
def processedCount (outcomes : List ItemOutcome) : Nat :=
  (outcomes.filter (fun o =>
    match o with
    | ItemOutcome.processed _ => true
    | ItemOutcome.failed _ => false)).length

/-- C9: a file whose PDF text extraction raises produces exactly one
per-item failure outcome at its position; the remaining files of the batch
are processed exactly as they would be without it, and the number of
successfully processed documents is unchanged — the failure is per-item,
not batch-fatal. -/
theorem C9_extraction_failure_is_per_item (extract : List Nat → Option String)
    (process : String → String → String → Nat → Option (Option Nat))
    (opt : NamingOption) (pre : String) (userId : Nat)
    (before after : List UploadedFile) (bad : UploadedFile)
    (hbad : extract bad.bytes = none) :
    processAllDocuments extract process opt pre userId (before ++ bad :: after) =
      processAllDocuments extract process opt pre userId before ++
        ItemOutcome.failed bad.name ::
          processAllDocuments extract process opt pre userId after ∧
    processedCount
        (processAllDocuments extract process opt pre userId (before ++ bad :: after)) =
      processedCount
        (processAllDocuments extract process opt pre userId (before ++ after)) := by
  constructor
  · simp [processAllDocuments, processOneUpload, hbad]
  · simp [processAllDocuments, processedCount, processOneUpload, hbad,
      List.filter_append]

/-- An extractor raising exactly on the bytes of one malformed PDF. -/
def extractWithOneFailure : List Nat → Option String :=
  fun b => if b = [9, 9, 9] then none else some "extracted text"

/-- A `process_document` stand-in that always returns document id 42. -/
def processAlways42 : String → String → String → Nat → Option (Option Nat) :=
  fun _ _ _ _ => some (some 42)

/-- A well-formed one-page upload. -/
def goodUpload : UploadedFile := ⟨"good.pdf", [1, 2, 3]⟩

/-- A malformed upload whose extraction raises. -/
def badUpload : UploadedFile := ⟨"broken.pdf", [9, 9, 9]⟩

/-- C9 witness: in the batch `[goodUpload, badUpload, goodUpload]` the
malformed file yields one per-item failure while both good files are
processed, and the processed count equals that of the batch without the
malformed file. -/
theorem C9_extraction_failure_witness :
    processAllDocuments extractWithOneFailure processAlways42
        NamingOption.useFilenames "" 5 [goodUpload, badUpload, goodUpload] =
      processAllDocuments extractWithOneFailure processAlways42
          NamingOption.useFilenames "" 5 [goodUpload] ++
        ItemOutcome.failed badUpload.name ::
          processAllDocuments extractWithOneFailure processAlways42
            NamingOption.useFilenames "" 5 [goodUpload] ∧
    processedCount
        (processAllDocuments extractWithOneFailure processAlways42
          NamingOption.useFilenames "" 5 [goodUpload, badUpload, goodUpload]) =
      processedCount
        (processAllDocuments extractWithOneFailure processAlways42
          NamingOption.useFilenames "" 5 [goodUpload, goodUpload]) :=
  C9_extraction_failure_is_per_item extractWithOneFailure processAlways42
    NamingOption.useFilenames "" 5 [goodUpload] [goodUpload] badUpload (by decide)

/-!
### `src/document/document_service.py`: `get_pdf_text` and its cache
(lines 18-28 and 30-118)

`compute_document_hash(file_content)` is `hashlib.md5(file_content).hexdigest()`
— a deterministic function of the raw bytes, modelled as a parameter
`hash : List Nat → String`.

`get_pdf_text(pdf_docs, document_cache)`: rejects batches larger than
`MAX_PDF_COUNT` (returns `None`); then for each document, inside a
per-document `try`/`except`:
* skip (`continue`) if the file exceeds `MAX_PDF_SIZE_MB`
  (`len(bytes)/(1024*1024) > 100`, i.e. `len(bytes) > 100*1024*1024` —
  division by the power of two is exact in floating point);
* `if document_cache and doc_hash in document_cache:` append the cached
  text, `cache_hits += 1`, `continue` (note the Python truthiness guard:
  an empty dict skips the lookup);
* otherwise invoke the extraction (`PdfReader` + per-page
  `extract_text()`, modelled as `extract : List Nat → Option String`,
  `none` = it raised), and on success append the text, store it in the
  cache under the hash and bump `docs_processed`; a raise is logged and
  the loop continues, leaving the cache unchanged.

`attempts` records the byte contents on which the extraction was invoked
(successfully or not). -/

/-- An uploaded PDF: name and raw bytes (`doc.getvalue()`). -/
structure PdfDoc where
  name : String
  bytes : List Nat
deriving DecidableEq, Repr

/-- `settings.MAX_PDF_SIZE_MB` expressed in bytes. -/
def maxPdfSizeBytes : Nat := 100 * 1024 * 1024

/-- `settings.MAX_PDF_COUNT`. -/
def maxPdfCount : Nat := 10

/-- The mutable state of the extraction loop. -/
structure ExtractionState where
  text : String
  cache : List (String × String)
  cache_hits : Nat
  docs_processed : Nat
  attempts : List (List Nat)
deriving DecidableEq, Repr

/-- `doc_hash in document_cache` / `document_cache[doc_hash]`: association
lookup, newest entry first. -/
def lookupCache (cache : List (String × String)) (h : String) : Option String :=
  (cache.find? (fun p => p.1 == h)).map (fun p => p.2)

/-- One iteration of the `for doc in pdf_docs` loop. -/
def processOnePdf (hash : List Nat → String) (extract : List Nat → Option String)
    (s : ExtractionState) (d : PdfDoc) : ExtractionState :=
  if d.bytes.length > maxPdfSizeBytes then s
  else
    match (if s.cache.isEmpty then none else lookupCache s.cache (hash d.bytes)) with
    | some cached =>
      { s with text := s.text ++ cached, cache_hits := s.cache_hits + 1 }
    | none =>
      match extract d.bytes with
      | some docText =>
        { s with text := s.text ++ docText,
                 cache := (hash d.bytes, docText) :: s.cache,
                 docs_processed := s.docs_processed + 1,
                 attempts := s.attempts ++ [d.bytes] }
      | none => { s with attempts := s.attempts ++ [d.bytes] }

/-- `get_pdf_text`: `None` for an oversized batch, otherwise the final loop
state starting from an initial cache. -/
def get_pdf_text (hash : List Nat → String) (extract : List Nat → Option String)
    (cache0 : List (String × String)) (docs : List PdfDoc) :
    Option ExtractionState :=
  if docs.length > maxPdfCount then none
  else some (docs.foldl (processOnePdf hash extract) ⟨"", cache0, 0, 0, []⟩)

/-- How often the extraction was invoked on byte content `b` in a run. -/
def extractionAttempts (r : Option ExtractionState) (b : List Nat) : Nat :=
  match r with
  | none => 0
  | some st => st.attempts.count b

/-- The final hit counter of a run. -/
def finalCacheHits (r : Option ExtractionState) : Nat :=
  match r with
  | none => 0
  | some st => st.cache_hits

/-- A hash function (collisions do not matter for the theorems below). -/
def hashConstK : List Nat → String := fun _ => "k"

/-- An extraction that raises exactly on the bytes `[9, 9, 9]` of a
malformed PDF and succeeds elsewhere. -/
def extractFailsOnBroken : List Nat → Option String :=
  fun b => if b = [9, 9, 9] then none else some "T"

/-- The malformed PDF. -/
def brokenPdf : PdfDoc := ⟨"broken.pdf", [9, 9, 9]⟩

/-- C7 counterexample: presenting the same malformed PDF twice invokes the
extraction twice — the first attempt raises, so nothing is cached and the
second presentation is a miss again, not a cache hit (the hit counter
stays 0). "Extraction invoked at most once per identical byte content" is
false as stated. -/
theorem C7_counterexample_failed_extraction_reattempted :
    extractionAttempts
        (get_pdf_text hashConstK extractFailsOnBroken [] [brokenPdf, brokenPdf])
        brokenPdf.bytes = 2 ∧
    finalCacheHits
        (get_pdf_text hashConstK extractFailsOnBroken [] [brokenPdf, brokenPdf])
      = 0 := by
  decide

/-- Invariant: extraction ran at most once on `b`, and if it ran, `b`'s text
sits in the cache under `b`'s hash. -/
def atMostOnceInv (hash : List Nat → String) (b : List Nat)
    (s : ExtractionState) : Prop :=
  s.attempts.count b ≤ 1 ∧
  (b ∈ s.attempts → ∃ v, lookupCache s.cache (hash b) = some v)

/-- Consing a cache entry never removes an existing key. -/
theorem lookupCache_cons_of_some (k t key v : String)
    (cache : List (String × String)) (hv : lookupCache cache key = some v) :
    ∃ w, lookupCache ((k, t) :: cache) key = some w := by
  unfold lookupCache at *
  by_cases hk : (k == key) = true
  · exact ⟨t, by simp [List.find?_cons_of_pos, hk]⟩
  · exact ⟨v, by rw [List.find?_cons_of_neg _ (by simpa using hk)]; exact hv⟩

/-- The loop body preserves the at-most-once invariant for any byte content
whose extraction succeeds. -/
theorem processOnePdf_preserves_inv (hash : List Nat → String)
    (extract : List Nat → Option String) (b : List Nat) (t : String)
    (hb : extract b = some t) (s : ExtractionState) (d : PdfDoc)
    (hs : atMostOnceInv hash b s) :
    atMostOnceInv hash b (processOnePdf hash extract s d) := by
  obtain ⟨hcount, hkey⟩ := hs
  unfold processOnePdf
  by_cases hsize : d.bytes.length > maxPdfSizeBytes
  · simpa [hsize] using ⟨hcount, hkey⟩
  · simp only [hsize, if_false]
    cases hlook : (if s.cache.isEmpty then none
        else lookupCache s.cache (hash d.bytes)) with
    | some cached => exact ⟨hcount, hkey⟩
    | none =>
      by_cases hdb : d.bytes = b
      · subst hdb
        have hmiss : lookupCache s.cache (hash d.bytes) = none := by
          by_cases hemp : s.cache.isEmpty
          · have : s.cache = [] := List.isEmpty_iff.mp hemp
            rw [this]; rfl
          · simpa [hemp] using hlook
        have hnotmem : d.bytes ∉ s.attempts := by
          intro hmem
          obtain ⟨v, hv⟩ := hkey hmem
          rw [hmiss] at hv
          cases hv
        have hzero : s.attempts.count d.bytes = 0 :=
          List.count_eq_zero.mpr hnotmem
        rw [hb]
        constructor
        · simp [List.count_append, hzero]
        · intro _
          refine ⟨t, ?_⟩
          unfold lookupCache
          simp [List.find?_cons_of_pos]
      · have hbne : extract d.bytes = none ∨ ∃ u, extract d.bytes = some u := by
          cases extract d.bytes with
          | none => exact Or.inl rfl
          | some u => exact Or.inr ⟨u, rfl⟩
        rcases hbne with hnone | ⟨u, hu⟩
        · rw [hnone]
          constructor
          · have hz : List.count b [d.bytes] = 0 :=
              List.count_eq_zero.mpr (by simp only [List.mem_singleton]; exact fun h => hdb h.symm)
            simpa [List.count_append, hz] using hcount
          · intro hmem
            have : b ∈ s.attempts := by
              rcases List.mem_append.mp hmem with h | h
              · exact h
              · exact absurd (List.mem_singleton.mp h).symm hdb
            exact hkey this
        · rw [hu]
          constructor
          · have hz : List.count b [d.bytes] = 0 :=
              List.count_eq_zero.mpr (by simp only [List.mem_singleton]; exact fun h => hdb h.symm)
            simpa [List.count_append, hz] using hcount
          · intro hmem
            have hmem' : b ∈ s.attempts := by
              rcases List.mem_append.mp hmem with h | h
              · exact h
              · exact absurd (List.mem_singleton.mp h).symm hdb
            obtain ⟨v, hv⟩ := hkey hmem'
            exact lookupCache_cons_of_some _ _ _ _ _ hv

/-- The whole loop preserves the invariant. -/
theorem foldl_preserves_inv (hash : List Nat → String)
    (extract : List Nat → Option String) (b : List Nat) (t : String)
    (hb : extract b = some t) :
    ∀ (docs : List PdfDoc) (s : ExtractionState), atMostOnceInv hash b s →
      atMostOnceInv hash b (docs.foldl (processOnePdf hash extract) s) := by
  intro docs
  induction docs with
  | nil => intro s hs; exact hs
  | cons d rest ih =>
    intro s hs
    exact ih _ (processOnePdf_preserves_inv hash extract b t hb s d hs)

/-- C7 amended: provided extraction succeeds on a byte content, any
`get_pdf_text` run invokes extraction on that content at most once — once a
result is cached under the content hash, every later presentation of the
same bytes takes the hit branch; and the hit branch returns the cached
text without invoking extraction and increments the hit counter. (When
extraction raises, nothing is cached and an identical later presentation
re-attempts extraction.) -/
theorem C7_amended_cache_idempotent (hash : List Nat → String)
    (extract : List Nat → Option String)
    (cache0 : List (String × String)) (docs : List PdfDoc)
    (b : List Nat) (t : String) (hb : extract b = some t)
    (st : ExtractionState)
    (hrun : get_pdf_text hash extract cache0 docs = some st) :
    st.attempts.count b ≤ 1 ∧
    ∀ (s : ExtractionState) (d : PdfDoc) (cached : String),
      ¬ d.bytes.length > maxPdfSizeBytes →
      s.cache.isEmpty = false →
      lookupCache s.cache (hash d.bytes) = some cached →
      processOnePdf hash extract s d =
        { s with text := s.text ++ cached, cache_hits := s.cache_hits + 1 } := by
  constructor
  · unfold get_pdf_text at hrun
    by_cases hcnt : docs.length > maxPdfCount
    · rw [if_pos hcnt] at hrun; cases hrun
    · rw [if_neg hcnt] at hrun
      have hst := Option.some.inj hrun
      have hinv : atMostOnceInv hash b (⟨"", cache0, 0, 0, []⟩ : ExtractionState) := by
        constructor
        · simp [List.count_nil]
        · intro hmem; cases hmem
      have := foldl_preserves_inv hash extract b t hb docs _ hinv
      rw [hst] at this
      exact this.1
  · intro s d cached hsize hemp hlook
    unfold processOnePdf
    rw [if_neg hsize]
    simp [hemp, hlook]

/-- Two presentations of the same well-formed PDF. -/
def samplePdf : PdfDoc := ⟨"sample.pdf", [1]⟩

/-- C7 amended witness: running `get_pdf_text` on the same well-formed PDF
twice (extraction succeeds, yielding `"T"`) extracts it exactly once — the
final state has one attempt, one cache hit and the text appended twice. -/
theorem C7_amended_cache_idempotent_witness :
    (ExtractionState.mk "TT" [("k", "T")] 1 1 [[1]]).attempts.count
      samplePdf.bytes ≤ 1 :=
  (C7_amended_cache_idempotent hashConstK extractFailsOnBroken []
    [samplePdf, samplePdf] samplePdf.bytes "T" (by decide)
    (ExtractionState.mk "TT" [("k", "T")] 1 1 [[1]]) (by decide)).1

/-!
### The chunker

`utils/document_processor.py` (lines 48-56) configures
`RecursiveCharacterTextSplitter(chunk_size=1000, chunk_overlap=200,
length_function=len, separators=["\n\n", "\n", " ", ""])` and calls its
`split_text`; `src/config/settings.py` (lines 34-35) sets
`CHUNK_SIZE = 1000` and `CHUNK_OVERLAP = 200`. The splitter itself lives
in the external langchain library, not in this repository.
-/

/-- `settings.CHUNK_SIZE`. -/
def CHUNK_SIZE : Nat := 1000

/-- `settings.CHUNK_OVERLAP`. -/
def CHUNK_OVERLAP : Nat := 200

/-- Largest admissible split position in `window`: the largest `p` with
`ov < p ≤ window.length` such that the separator ends exactly at `p`
(i.e. `sep` is a suffix of `window.take p`); `none` when no separator
occurrence gives such a position. -/
def lastBoundary (sep : List Char) (ov : Nat) (window : List Char) : Option Nat :=
  ((List.range (window.length + 1)).reverse).find?
    (fun p => decide (ov < p) && sep.isSuffixOf (window.take p))

/-- Modelled from the spec: the splitting-point policy of the chunker
(langchain's `RecursiveCharacterTextSplitter.split_text`, which is not part
of this repository). Spec §4.1: "prefer breaking at paragraph boundaries,
then line boundaries, then whitespace, then hard character cutoff, in that
priority order", and "must not infinite-loop when no separator is found
within a chunk_size window (falls back to fixed-width slicing)". The next
chunk ends at the latest paragraph boundary within the next `cs`
characters, else the latest line boundary, else the latest space, else at
the hard cutoff `cs`; a boundary must lie strictly beyond the `ov`-sized
overlap so that consecutive chunks make progress. -/
def splitPoint (cs ov : Nat) (text : List Char) : Nat :=
  match lastBoundary ['\n', '\n'] ov (text.take cs) with
  | some p => p
  | none =>
    match lastBoundary ['\n'] ov (text.take cs) with
    | some p => p
    | none =>
      match lastBoundary [' '] ov (text.take cs) with
      | some p => p
      | none => cs

/-- Modelled from the spec: the chunker loop. Spec §4.1: "empty input text
→ empty sequence"; "text shorter than chunk_size → single chunk equal to
the whole text"; "each produced chunk after the first overlaps the tail of
the previous chunk by approximately overlap characters" — the chunk ends
at `splitPoint` and the next chunk starts `ov` characters earlier. The
fuel argument bounds the recursion; `fuel = text.length + 1` always
suffices under a valid configuration (`ov < cs`), since every step
consumes at least one character. -/
def chunkCharsFuel (cs ov : Nat) : Nat → List Char → List (List Char)
  | 0, _ => []
  | Nat.succ fuel, text =>
    if text.length ≤ cs then (if text.isEmpty then [] else [text])
    else
      let p := splitPoint cs ov text
      text.take p :: chunkCharsFuel cs ov fuel (text.drop (p - ov))

/-- Modelled from the spec: `chunk(text, chunk_size, overlap)` of §4.1. -/
def chunk_text (cs ov : Nat) (text : List Char) : List (List Char) :=
  chunkCharsFuel cs ov (text.length + 1) text

/-- A found boundary lies within the window. -/
theorem lastBoundary_le_length (sep : List Char) (ov : Nat)
    (window : List Char) (p : Nat) (h : lastBoundary sep ov window = some p) :
    p ≤ window.length := by
  have hmem := List.mem_of_find?_eq_some h
  have hrange : p ∈ List.range (window.length + 1) :=
    List.mem_reverse.mp hmem
  exact Nat.lt_succ_iff.mp (List.mem_range.mp hrange)

/-- The chosen split position never exceeds the chunk size. -/
theorem splitPoint_le (cs ov : Nat) (text : List Char) :
    splitPoint cs ov text ≤ cs := by
  have hwin : (text.take cs).length ≤ cs := text.length_take_le cs
  unfold splitPoint
  split
  next p h => exact le_trans (lastBoundary_le_length _ _ _ _ h) hwin
  next h =>
    split
    next p h1 => exact le_trans (lastBoundary_le_length _ _ _ _ h1) hwin
    next h1 =>
      split
      next p h0 => exact le_trans (lastBoundary_le_length _ _ _ _ h0) hwin
      next h0 => exact le_refl cs

/-- Every chunk the fuel-bounded loop produces has at most `cs` characters. -/
theorem chunkCharsFuel_length_le (cs ov : Nat) :
    ∀ (fuel : Nat) (text : List Char),
      ∀ c ∈ chunkCharsFuel cs ov fuel text, c.length ≤ cs := by
  intro fuel
  induction fuel with
  | zero => intro text c hc; cases hc
  | succ n ih =>
    intro text c hc
    unfold chunkCharsFuel at hc
    by_cases hlen : text.length ≤ cs
    · rw [if_pos hlen] at hc
      by_cases hemp : text.isEmpty
      · rw [if_pos hemp] at hc; cases hc
      · rw [if_neg hemp] at hc
        rw [List.mem_singleton.mp hc]
        exact hlen
    · rw [if_neg hlen] at hc
      rcases List.mem_cons.mp hc with hhead | htail
      · subst hhead
        calc (text.take (splitPoint cs ov text)).length
            ≤ splitPoint cs ov text := text.length_take_le _
          _ ≤ cs := splitPoint_le cs ov text
      · exact ih _ c htail

/-- C10: under a configuration with positive chunk size and overlap
strictly smaller than chunk size (the deployed configuration is
`CHUNK_SIZE = 1000`, `CHUNK_OVERLAP = 200`), every chunk the chunker
produces — not only all but the last — has length at most `chunk_size`. -/
theorem C10_chunk_size_bound (cs ov : Nat) (_hcs : 0 < cs) (_hov : ov < cs)
    (text : List Char) :
    ∀ c ∈ chunk_text cs ov text, c.length ≤ cs := by
  intro c hc
  exact chunkCharsFuel_length_le cs ov (text.length + 1) text c hc

/-- C10 witness: at the deployed configuration (1000, 200), the text
`"abc"` yields the single chunk `"abc"`, whose length is within the
bound. -/
theorem C10_chunk_size_bound_witness : (['a', 'b', 'c'] : List Char).length ≤ 1000 :=
  C10_chunk_size_bound 1000 200 (by decide) (by decide) ['a', 'b', 'c']
    ['a', 'b', 'c'] (by decide)

/-- Sanity check of the spec's §8 scenario on the model (not itself a
claim): `"Paragraph one.\n\nParagraph two."` with `chunk_size = 20` and
`overlap = 5` yields two chunks, split at the paragraph boundary, each
within the bound. -/
theorem chunk_text_scenario_two_paragraphs :
    chunk_text 20 5
        ("Paragraph one.\n\nParagraph two.".toList) =
      ["Paragraph one.\n\n".toList, "ne.\n\nParagraph two.".toList] := by
  decide

end Doculens
